import Mathlib

/-
Verification of the `debounce` scheduler (src/debounce.js).

The JavaScript module builds a closure holding mutable locals
(`lastArgs`, `lastThis`, `maxWait`, `result`, `timerId`, `lastCallTime`,
`lastInvokeTime`, plus the construction-time policy `wait`, `leading`,
`trailing`, `maxing`, `useRAF`).  We embed it shallowly:

* times and JS numbers are `Int` (differences may be negative when the
  clock moves backward, exactly as in the source);
* the construction-time coercions (`+wait || 0`, truthiness, the strict
  `wait !== 0` test) are modelled over a small JS-value type `JSVal`
  where `nan` stands for NaN and for any non-numeric value whose unary
  `+` coercion is NaN;
* the closure's mutable locals become fields of a `State` record, and
  every inner function of the closure becomes a function
  `State -> ... -> State × result`;
* the target `func` is an explicit parameter of type
  `Option Int -> List Int -> Except Unit Int`; an `Except.error` models
  the target throwing (the exception propagates, `result` is not
  assigned);
* the host timer primitives are modelled by the `Timer` value stored in
  `timerId`: `startTimer` records which primitive was used and, for
  `setTimeout`, the delay that was requested;
* the `calls` field is instrumentation: it records each invocation of
  the target (the observable effect of `func.apply(thisArg, args)` in
  `invokeFunc`), newest first.  It corresponds to no source variable.
-/

namespace Debounce

/-- Values that can be passed for `wait` / `options.maxWait`:
`undef` is JS `undefined` (the argument was omitted), `num n` a numeric
value, `nan` is NaN or any non-numeric value whose numeric coercion is
NaN. -/
inductive JSVal where
  | undef
  | nan
  | num (n : Int)
deriving DecidableEq, Repr

/-- JS truthiness of a `JSVal`: `undefined`, `NaN` and `0` are falsy. -/
def isFalsy : JSVal → Bool
  | .undef => true
  | .nan => true
  | .num n => n == 0

/-- Models the JS coercion `+v || 0`: numbers are kept (`0` maps to `0`),
`undefined`/NaN coerce to NaN which `|| 0` turns into `0`. -/
def jsPlusOrZero : JSVal → Int
  | .num n => n
  | _ => 0

/-- The `options` object, after the per-field coercions the source
performs: `leading` is `!!options.leading`, `maxWaitPresent` is
`'maxWait' in options`, `trailingPresent` is `'trailing' in options`,
`trailing` is `!!options.trailing`. -/
structure OptsArg where
  leading : Bool
  maxWaitPresent : Bool
  maxWait : JSVal
  trailingPresent : Bool
  trailing : Bool
deriving DecidableEq, Repr

/-- The construction-time policy: the coerced `wait`, the `leading` /
`trailing` / `maxing` flags, the stored `maxWait` (only meaningful when
`maxing`; the source leaves it `undefined` otherwise and never reads it
unguarded), and the `useRAF` mode boolean. -/
structure Config where
  wait : Int
  leading : Bool
  trailing : Bool
  maxing : Bool
  maxWait : Int
  useRAF : Bool
deriving DecidableEq, Repr

/-- A pending timer: either a `requestAnimationFrame` handle or a
`setTimeout` handle remembering the delay that was requested. -/
inductive Timer where
  | raf
  | timeout (delay : Int)
deriving DecidableEq, Repr

/-- `startTimer(pendingFunc, wait)`: uses `requestAnimationFrame` when
`useRAF` (cancelling any previous frame request — in the state model the
old handle is simply overwritten), else `setTimeout(pendingFunc, wait)`. -/
def startTimer (cfg : Config) (delay : Int) : Timer :=
  if cfg.useRAF then .raf else .timeout delay

/-- Which host cancellation primitive `cancelTimer(id)` uses. -/
inductive CancelKind where
  | frame
  | timeout
deriving DecidableEq, Repr

/-- `cancelTimer(id)`: `cancelAnimationFrame` when `useRAF`, else
`clearTimeout`. -/
def cancelTimerKind (cfg : Config) : CancelKind :=
  if cfg.useRAF then .frame else .timeout

/-- The construction prologue of `debounce(func, wait, options)`:
`useRAF = (!wait && wait !== 0 && typeof root.requestAnimationFrame === 'function')`,
the `TypeError` for a non-callable `func`, `wait = +wait || 0`, and the
option coercions `leading = !!options.leading`,
`maxing = 'maxWait' in options`,
`maxWait = maxing ? Math.max(+options.maxWait || 0, wait) : maxWait`,
`trailing = 'trailing' in options ? !!options.trailing : trailing`.
A non-object `options` is ignored (`isObject` guard), modelled by
`Option OptsArg`. -/
def debounceInit (funcIsFunction : Bool) (wait : JSVal)
    (options : Option OptsArg) (rafAvailable : Bool) : Except String Config :=
  let useRAF := isFalsy wait && wait != JSVal.num 0 && rafAvailable
  if !funcIsFunction then .error "Expected a function"
  else
    let w := jsPlusOrZero wait
    match options with
    | some o =>
        .ok { wait := w
              leading := o.leading
              trailing := if o.trailingPresent then o.trailing else true
              maxing := o.maxWaitPresent
              maxWait := if o.maxWaitPresent then max (jsPlusOrZero o.maxWait) w else 0
              useRAF := useRAF }
    | none =>
        .ok { wait := w, leading := false, trailing := true, maxing := false,
              maxWait := 0, useRAF := useRAF }

/-- The closure's mutable state.  `calls` is instrumentation recording
each target invocation (time, `thisArg`, `args`), newest first. -/
structure State where
  cfg : Config
  lastArgs : Option (List Int)
  lastThis : Option Int
  result : Option Int
  timerId : Option Timer
  lastCallTime : Option Int
  lastInvokeTime : Int
  calls : List (Int × Option Int × Option (List Int))
deriving DecidableEq, Repr

/-- The state right after construction: every local `undefined`, except
`lastInvokeTime = 0`. -/
def State.init (cfg : Config) : State :=
  { cfg := cfg, lastArgs := none, lastThis := none, result := none,
    timerId := none, lastCallTime := none, lastInvokeTime := 0, calls := [] }

/-- The wrapped target operation.  `Except.error` models a throw. -/
abbrev Func := Option Int → List Int → Except Unit Int

/-- Result of one entry-point call: the new state, and either the JS
return value (`Option Int`, `none` being `undefined`) or a propagated
exception from the target. -/
abbrev Out := State × Except Unit (Option Int)

/-- `invokeFunc(time)`: capture `args`/`thisArg`, clear
`lastArgs`/`lastThis`, set `lastInvokeTime = time`, then call
`func.apply(thisArg, args)` and store its value in `result`.  If the
target throws, `result` is not assigned and the exception propagates;
the clearing has already happened.  `args.getD []` models
`func.apply(thisArg, undefined)` calling the target with no arguments. -/
def invokeFunc (f : Func) (s : State) (time : Int) : Out :=
  let args := s.lastArgs
  let thisArg := s.lastThis
  let s1 : State :=
    { s with lastArgs := none, lastThis := none, lastInvokeTime := time,
             calls := (time, thisArg, args) :: s.calls }
  match f thisArg (args.getD []) with
  | .ok r => ({ s1 with result := some r }, .ok (some r))
  | .error e => (s1, .error e)

/-- `shouldInvoke(time)`: `lastCallTime === undefined ||
timeSinceLastCall >= wait || timeSinceLastCall < 0 ||
(maxing && timeSinceLastInvoke >= maxWait)`. -/
def shouldInvoke (s : State) (time : Int) : Bool :=
  match s.lastCallTime with
  | none => true
  | some c =>
      decide (s.cfg.wait ≤ time - c) || decide (time - c < 0) ||
        (s.cfg.maxing && decide (s.cfg.maxWait ≤ time - s.lastInvokeTime))

/-- `remainingWait(time)`: `timeWaiting = wait - (time - lastCallTime)`;
`maxing ? Math.min(timeWaiting, maxWait - (time - lastInvokeTime)) :
timeWaiting`.  The `none` branch is unreachable from `timerExpired`,
which only computes this when `shouldInvoke` is false and hence
`lastCallTime` is set (in JS the arithmetic would give NaN there). -/
def remainingWait (s : State) (time : Int) : Int :=
  match s.lastCallTime with
  | none => 0
  | some c =>
      let timeWaiting := s.cfg.wait - (time - c)
      if s.cfg.maxing then min timeWaiting (s.cfg.maxWait - (time - s.lastInvokeTime))
      else timeWaiting

/-- `trailingEdge(time)`: clear `timerId`; if `trailing && lastArgs`
(a JS args array is always truthy, so the test is "`lastArgs` is set"),
invoke; else clear `lastArgs`/`lastThis` and return `result`. -/
def trailingEdge (f : Func) (s : State) (time : Int) : Out :=
  let s0 := { s with timerId := none }
  if s0.cfg.trailing && s0.lastArgs.isSome then invokeFunc f s0 time
  else ({ s0 with lastArgs := none, lastThis := none }, .ok s0.result)

/-- `timerExpired()` with `time = Date.now()` passed explicitly: run the
trailing edge if `shouldInvoke(time)`, else restart the timer for
`remainingWait(time)` (the JS function returns `undefined` on that
path). -/
def timerExpired (f : Func) (s : State) (time : Int) : Out :=
  if shouldInvoke s time then trailingEdge f s time
  else ({ s with timerId := some (startTimer s.cfg (remainingWait s time)) }, .ok none)

/-- `leadingEdge(time)`: set `lastInvokeTime = time`, start the timer
for the trailing edge (`startTimer(timerExpired, wait)`), and invoke
immediately when `leading`, else return the stored `result`. -/
def leadingEdge (f : Func) (s : State) (time : Int) : Out :=
  let s0 := { s with lastInvokeTime := time,
                     timerId := some (startTimer s.cfg s.cfg.wait) }
  if s0.cfg.leading then invokeFunc f s0 time else (s0, .ok s0.result)

/-- `cancel()`: cancel any pending timer via the host primitive (a pure
host effect — in the state, `timerId` becomes unset), reset
`lastInvokeTime` to `0` and `lastArgs`, `lastCallTime`, `lastThis`,
`timerId` to `undefined`. -/
def cancel (s : State) : State :=
  { s with lastInvokeTime := 0, lastArgs := none, lastCallTime := none,
           lastThis := none, timerId := none }

/-- `flush()` with `time = Date.now()` passed explicitly:
`timerId === undefined ? result : trailingEdge(Date.now())`. -/
def flush (f : Func) (s : State) (time : Int) : Out :=
  if s.timerId = none then (s, .ok s.result) else trailingEdge f s time

/-- `pending()`: `timerId !== undefined`. -/
def pending (s : State) : Bool :=
  s.timerId.isSome

/-- `debounced(...args)` with `time = Date.now()` passed explicitly:
compute `isInvoking = shouldInvoke(time)` on the old state, record
`lastArgs`/`lastThis`/`lastCallTime`, then: leading edge when invoking
with no pending timer; immediate invocation with a fresh `wait` timer
when invoking while maxing (tight loop); otherwise ensure a timer is
pending and return the stored `result`. -/
def debounced (f : Func) (s0 : State) (time : Int)
    (args : List Int) (thisArg : Option Int) : Out :=
  let isInvoking := shouldInvoke s0 time
  let s := { s0 with lastArgs := some args, lastThis := thisArg,
                     lastCallTime := some time }
  if isInvoking && s.timerId.isNone then
    leadingEdge f s time
  else if isInvoking && s.cfg.maxing then
    invokeFunc f { s with timerId := some (startTimer s.cfg s.cfg.wait) } time
  else if s.timerId.isNone then
    ({ s with timerId := some (startTimer s.cfg s.cfg.wait) }, .ok s.result)
  else
    (s, .ok s.result)

/-! Concrete instances used to evaluate the model on specific inputs. -/

/-- A target that returns `99` on every invocation. -/
def okFunc : Func := fun _ _ => .ok 99

/-- A target that throws on every invocation. -/
def throwFunc : Func := fun _ _ => .error ()

/-- `debounce(func, 100, { leading: true, trailing: false })`. -/
def cfgLeadOnly : Config :=
  { wait := 100, leading := true, trailing := false, maxing := false,
    maxWait := 0, useRAF := false }

/-- `debounce(func, 100)` (defaults: trailing only). -/
def cfgTrail : Config :=
  { wait := 100, leading := false, trailing := true, maxing := false,
    maxWait := 0, useRAF := false }

/-- `debounce(func, 100, { leading: true })` (leading and trailing). -/
def cfgLead : Config :=
  { wait := 100, leading := true, trailing := true, maxing := false,
    maxWait := 0, useRAF := false }

/-- A mid-cycle state in leading-only mode: a timer is pending, a later
trigger queued arguments `[5]`, the last execution stored result `7`. -/
def sPendingNoTrail : State :=
  { cfg := cfgLeadOnly, lastArgs := some [5], lastThis := none,
    result := some 7, timerId := some (.timeout 100), lastCallTime := some 0,
    lastInvokeTime := 0, calls := [] }

/-- A mid-cycle state in trailing mode: a timer is pending, arguments
`[5]` are queued, the last execution stored result `7`. -/
def sPendingTrail : State :=
  { cfg := cfgTrail, lastArgs := some [5], lastThis := none,
    result := some 7, timerId := some (.timeout 100), lastCallTime := some 0,
    lastInvokeTime := 0, calls := [] }

/-- A trailing-mode state whose timer fires early: last trigger at `0`,
so at time `50` the cycle (wait `100`) is not over yet. -/
def sEarlyTimer : State :=
  { cfg := cfgTrail, lastArgs := some [5], lastThis := none,
    result := none, timerId := some (.timeout 100), lastCallTime := some 0,
    lastInvokeTime := 0, calls := [] }

/-! Shared helper lemmas about `invokeFunc`.  Both of its branches
produce the same state apart from `result`, so each field can be read
off without knowing whether the target threw. -/

theorem invokeFunc_fst_lastArgs (f : Func) (s : State) (t : Int) :
    (invokeFunc f s t).1.lastArgs = none := by
  simp only [invokeFunc]
  cases h : f s.lastThis (s.lastArgs.getD []) <;> simp [h]

theorem invokeFunc_fst_lastThis (f : Func) (s : State) (t : Int) :
    (invokeFunc f s t).1.lastThis = none := by
  simp only [invokeFunc]
  cases h : f s.lastThis (s.lastArgs.getD []) <;> simp [h]

theorem invokeFunc_fst_lastInvokeTime (f : Func) (s : State) (t : Int) :
    (invokeFunc f s t).1.lastInvokeTime = t := by
  simp only [invokeFunc]
  cases h : f s.lastThis (s.lastArgs.getD []) <;> simp [h]

theorem invokeFunc_fst_timerId (f : Func) (s : State) (t : Int) :
    (invokeFunc f s t).1.timerId = s.timerId := by
  simp only [invokeFunc]
  cases h : f s.lastThis (s.lastArgs.getD []) <;> simp [h]

theorem invokeFunc_fst_cfg (f : Func) (s : State) (t : Int) :
    (invokeFunc f s t).1.cfg = s.cfg := by
  simp only [invokeFunc]
  cases h : f s.lastThis (s.lastArgs.getD []) <;> simp [h]

theorem invokeFunc_fst_calls (f : Func) (s : State) (t : Int) :
    (invokeFunc f s t).1.calls = (t, s.lastThis, s.lastArgs) :: s.calls := by
  simp only [invokeFunc]
  cases h : f s.lastThis (s.lastArgs.getD []) <;> simp [h]

theorem trailingEdge_calls_of_lastArgs_none (f : Func) (s : State) (t : Int)
    (h : s.lastArgs = none) : (trailingEdge f s t).1.calls = s.calls := by
  simp [trailingEdge, h]

theorem timerExpired_calls_of_lastArgs_none (g : Func) (s : State) (t : Int)
    (h : s.lastArgs = none) : (timerExpired g s t).1.calls = s.calls := by
  simp only [timerExpired]
  by_cases hsi : shouldInvoke s t = true
  · rw [if_pos hsi]
    exact trailingEdge_calls_of_lastArgs_none g s t h
  · rw [if_neg hsi]

/-- Claim C1: for every call time `t`, the `shouldInvoke` predicate (the
single decision point shared by the trigger entry point `debounced` and
the timer-expiry handler `timerExpired`) returns true iff no prior
trigger exists (`lastCallTime` unset), or `t - lastCallTime ≥ wait`, or
`t - lastCallTime < 0` (clock moved backward), or maxing is enabled and
`t - lastInvokeTime ≥ maxWait`. -/
theorem shouldInvoke_iff (s : State) (t : Int) :
    shouldInvoke s t = true ↔
      s.lastCallTime = none ∨
        ∃ c, s.lastCallTime = some c ∧
          (s.cfg.wait ≤ t - c ∨ t - c < 0 ∨
            (s.cfg.maxing = true ∧ s.cfg.maxWait ≤ t - s.lastInvokeTime)) := by
  cases h : s.lastCallTime with
  | none => simp [shouldInvoke, h]
  | some c =>
      simp only [shouldInvoke, h, Bool.or_eq_true, Bool.and_eq_true,
        decide_eq_true_eq]
      constructor
      · intro hb
        exact Or.inr ⟨c, rfl, by tauto⟩
      · rintro (hc | ⟨c2, hc2, hd⟩)
        · simp at hc
        · injection hc2 with hc2
          subst hc2
          tauto

/-- Claim C5: `cancel` leaves the state with `lastInvokeTime = 0` and
`lastArgs`, `lastCallTime`, `lastThis`, `timerId` all unset, so
`pending` is false immediately afterward; no execution of the target
occurs (the invocation record is unchanged); and `cancel` is idempotent. -/
theorem cancel_resets (s : State) :
    (cancel s).lastInvokeTime = 0 ∧ (cancel s).lastArgs = none ∧
    (cancel s).lastCallTime = none ∧ (cancel s).lastThis = none ∧
    (cancel s).timerId = none ∧ pending (cancel s) = false ∧
    (cancel s).calls = s.calls ∧ cancel (cancel s) = cancel s := by
  refine ⟨rfl, rfl, rfl, rfl, rfl, rfl, rfl, rfl⟩

/-- Claim C9: every call to the trigger entry point leaves a timer
handle set — `pending` is true on the resulting state (in particular
after every call that returns normally): each trigger either finds a
cycle in progress or starts one. -/
theorem debounced_pending (f : Func) (s : State) (t : Int)
    (args : List Int) (th : Option Int) :
    pending (debounced f s t args th).1 = true := by
  simp only [debounced, leadingEdge, pending]
  split
  · split
    · rw [invokeFunc_fst_timerId]
      rfl
    · rfl
  · split
    · rw [invokeFunc_fst_timerId]
      rfl
    · split
      · rfl
      · rename_i h3
        show s.timerId.isSome = true
        cases hx : s.timerId with
        | none =>
            refine absurd ?_ h3
            show s.timerId.isNone = true
            rw [hx]
            rfl
        | some tm =>
            rfl

/-- Claim C10: every run of the trailing-edge logic clears `lastArgs`
and `lastThis`, even when it does not execute the target (trailing
disabled, or no queued arguments); in those non-executing cases the
invocation record is unchanged and the stored result is returned. -/
theorem trailingEdge_clears (f : Func) (s : State) (t : Int) :
    (trailingEdge f s t).1.lastArgs = none ∧
    (trailingEdge f s t).1.lastThis = none ∧
    (s.cfg.trailing = false →
      (trailingEdge f s t).1.calls = s.calls ∧
      (trailingEdge f s t).2 = .ok s.result) ∧
    (s.lastArgs = none →
      (trailingEdge f s t).1.calls = s.calls ∧
      (trailingEdge f s t).2 = .ok s.result) := by
  refine ⟨?_, ?_, ?_, ?_⟩
  · simp only [trailingEdge]
    split
    · rw [invokeFunc_fst_lastArgs]
    · rfl
  · simp only [trailingEdge]
    split
    · rw [invokeFunc_fst_lastThis]
    · rfl
  · intro h
    simp [trailingEdge, h]
  · intro h
    simp [trailingEdge, h]

/-- Witness for C10 at a concrete non-executing state (trailing
disabled, arguments queued): the queued arguments are dropped and the
stored result returned, with no target execution. -/
theorem trailingEdge_clears_witness :
    (trailingEdge (fun _ _ => .ok 99)
        { cfg := { wait := 100, leading := true, trailing := false,
                   maxing := false, maxWait := 0, useRAF := false },
          lastArgs := some [5], lastThis := none, result := some 7,
          timerId := some (.timeout 100), lastCallTime := some 0,
          lastInvokeTime := 0, calls := [] } 40).1.lastArgs = none ∧
    (trailingEdge (fun _ _ => .ok 99)
        { cfg := { wait := 100, leading := true, trailing := false,
                   maxing := false, maxWait := 0, useRAF := false },
          lastArgs := some [5], lastThis := none, result := some 7,
          timerId := some (.timeout 100), lastCallTime := some 0,
          lastInvokeTime := 0, calls := [] } 40).1.calls = [] := by
  have h := trailingEdge_clears (fun _ _ => .ok 99)
      { cfg := { wait := 100, leading := true, trailing := false,
                 maxing := false, maxWait := 0, useRAF := false },
        lastArgs := some [5], lastThis := none, result := some 7,
        timerId := some (.timeout 100), lastCallTime := some 0,
        lastInvokeTime := 0, calls := [] } 40
  exact ⟨h.1, (h.2.2.1 rfl).1⟩

/-- Claim C2 is false as stated: here a timer is pending and arguments
are queued, yet `flush` executes nothing (the invocation record stays
empty) and returns the stale stored result `7`, because `trailing` is
disabled.  Pending state alone does not make `flush` invoke the target. -/
theorem flush_pending_no_invoke_cex :
    pending sPendingNoTrail = true ∧
    sPendingNoTrail.lastArgs = some [5] ∧
    (flush okFunc sPendingNoTrail 40).2 = .ok (some 7) ∧
    (flush okFunc sPendingNoTrail 40).1.calls = [] := by
  exact ⟨rfl, rfl, rfl, rfl⟩

/-- Claim C2 (amended): `flush` with no timer pending returns the stored
result unchanged without invoking the target; with a timer pending it
runs the trailing-edge logic at the current time — it executes the
target with the queued arguments and returns the fresh result exactly
when `trailing` is enabled and arguments are queued, and otherwise drops
the queued arguments and returns the stored result unchanged. -/
theorem flush_spec (f : Func) (s : State) (t : Int) :
    (s.timerId = none → flush f s t = (s, .ok s.result)) ∧
    (s.timerId ≠ none →
      flush f s t = trailingEdge f s t ∧
      ((s.cfg.trailing && s.lastArgs.isSome) = true →
        (flush f s t).1.calls = (t, s.lastThis, s.lastArgs) :: s.calls ∧
        ∀ r, f s.lastThis (s.lastArgs.getD []) = .ok r →
          (flush f s t).2 = .ok (some r) ∧ (flush f s t).1.result = some r) ∧
      ((s.cfg.trailing && s.lastArgs.isSome) = false →
        (flush f s t).1.calls = s.calls ∧ (flush f s t).2 = .ok s.result)) := by
  constructor
  · intro h
    simp [flush, h]
  · intro h
    have hf : flush f s t = trailingEdge f s t := by
      simp [flush, h]
    refine ⟨hf, ?_, ?_⟩
    · intro hcond
      refine ⟨?_, ?_⟩
      · rw [hf]
        simp [trailingEdge, hcond, invokeFunc_fst_calls]
      · intro r hr
        rw [hf]
        simp [trailingEdge, hcond, invokeFunc, hr]
    · intro hcond
      rw [hf]
      simp [trailingEdge, hcond]

/-- Witness for the amended C2 at a concrete pending trailing-mode
state: `flush` invokes the target with the queued arguments and returns
its fresh result `99`. -/
theorem flush_spec_witness :
    (flush okFunc sPendingTrail 40).2 = .ok (some 99) ∧
    (flush okFunc sPendingTrail 40).1.calls = [(40, none, some [5])] := by
  have h := flush_spec okFunc sPendingTrail 40
  have h2 := h.2 (by decide)
  obtain ⟨hcalls, hres⟩ := h2.2.1 rfl
  exact ⟨(hres 99 rfl).1, hcalls⟩

/-- Claim C3: when `leading` is enabled and a cycle starts with a single
trigger (idle state, `shouldInvoke` holds), exactly one target execution
happens — the leading one, at the trigger time with the trigger's
arguments — and the subsequent timer-expiry handler performs no second
execution for that cycle, because the leading invocation cleared
`lastArgs` and the trailing edge only invokes when `lastArgs` is set. -/
theorem leading_single_trigger_once (f g : Func) (s : State) (t0 : Int)
    (args : List Int) (th : Option Int)
    (hTimer : s.timerId = none) (hLead : s.cfg.leading = true)
    (hInv : shouldInvoke s t0 = true) :
    (debounced f s t0 args th).1.calls = (t0, th, some args) :: s.calls ∧
    (debounced f s t0 args th).1.lastArgs = none ∧
    ∀ t1, (timerExpired g (debounced f s t0 args th).1 t1).1.calls =
      (debounced f s t0 args th).1.calls := by
  have h2 : (debounced f s t0 args th).1.lastArgs = none := by
    simp [debounced, leadingEdge, hInv, hTimer, hLead, invokeFunc_fst_lastArgs]
  refine ⟨?_, h2, ?_⟩
  · simp [debounced, leadingEdge, hInv, hTimer, hLead, invokeFunc_fst_calls]
  · intro t1
    exact timerExpired_calls_of_lastArgs_none g _ t1 h2

/-- Witness for C3: a single trigger at time `0` on a fresh
leading+trailing instance produces exactly the one leading execution. -/
theorem leading_single_trigger_once_witness :
    (debounced okFunc (State.init cfgLead) 0 [1] none).1.calls =
      [(0, none, some [1])] ∧
    (timerExpired okFunc (debounced okFunc (State.init cfgLead) 0 [1] none).1
        100).1.calls = [(0, none, some [1])] := by
  have h := leading_single_trigger_once okFunc okFunc (State.init cfgLead)
    0 [1] none rfl rfl rfl
  refine ⟨?_, ?_⟩
  · rw [h.1]
    rfl
  · rw [h.2.2 100, h.1]
    rfl

/-- Claim C4: construction never fails on invalid numeric values — a
non-numeric `wait` (omitted or NaN) coerces to `0`, and when `maxWait`
is present its stored value is `max(+maxWait || 0, wait)`, hence always
at least `wait`. -/
theorem construction_coercion (w : JSVal) (opts : Option OptsArg) (raf : Bool) :
    ∃ cfg, debounceInit true w opts raf = .ok cfg ∧
      ((w = .undef ∨ w = .nan) → cfg.wait = 0) ∧
      (∀ o, opts = some o → o.maxWaitPresent = true →
        cfg.maxWait = max (jsPlusOrZero o.maxWait) cfg.wait ∧
        cfg.wait ≤ cfg.maxWait) := by
  cases opts with
  | none =>
      refine ⟨_, rfl, ?_, ?_⟩
      · rintro (rfl | rfl) <;> rfl
      · intro o ho
        cases ho
  | some o =>
      refine ⟨_, rfl, ?_, ?_⟩
      · rintro (rfl | rfl) <;> rfl
      · intro o2 ho2 hpres
        injection ho2 with ho2
        subst ho2
        constructor
        · simp [hpres]
        · simp [hpres, le_max_right]

/-- Witness for C4: NaN `wait` with a NaN-like (here omitted-valued)
`maxWait` option constructs successfully with `wait = 0` and
`maxWait = 0 ≥ wait`. -/
theorem construction_coercion_witness :
    ∃ cfg, debounceInit true .nan
        (some { leading := false, maxWaitPresent := true, maxWait := .undef,
                trailingPresent := false, trailing := false }) false = .ok cfg ∧
      cfg.wait = 0 ∧ cfg.maxWait = 0 ∧ cfg.wait ≤ cfg.maxWait := by
  obtain ⟨cfg, h1, h2, h3⟩ := construction_coercion .nan
    (some { leading := false, maxWaitPresent := true, maxWait := .undef,
            trailingPresent := false, trailing := false }) false
  have hw := h2 (Or.inr rfl)
  obtain ⟨hm, hle⟩ := h3 _ rfl rfl
  refine ⟨cfg, h1, hw, ?_, hle⟩
  rw [hm, hw]
  decide

/-- Claim C6: when the timer expires at a time `t` at which
`shouldInvoke` is false, the handler performs no execution and restarts
the timer for exactly `remainingWait`, which is
`min(wait - (t - lastCallTime), maxWait - (t - lastInvokeTime))` when
maxing and `wait - (t - lastCallTime)` otherwise. -/
theorem timerExpired_reschedule (f : Func) (s : State) (t : Int)
    (h : shouldInvoke s t = false) :
    (timerExpired f s t).1.calls = s.calls ∧
    (timerExpired f s t).1.timerId =
      some (startTimer s.cfg (remainingWait s t)) ∧
    (timerExpired f s t).2 = .ok none ∧
    ∃ c, s.lastCallTime = some c ∧
      remainingWait s t =
        (if s.cfg.maxing = true then
          min (s.cfg.wait - (t - c)) (s.cfg.maxWait - (t - s.lastInvokeTime))
        else s.cfg.wait - (t - c)) := by
  have hb : ¬(shouldInvoke s t = true) := by
    simp [h]
  refine ⟨?_, ?_, ?_, ?_⟩
  · simp only [timerExpired]
    rw [if_neg hb]
  · simp only [timerExpired]
    rw [if_neg hb]
  · simp only [timerExpired]
    rw [if_neg hb]
  · cases hc : s.lastCallTime with
    | none =>
        exfalso
        have ht : shouldInvoke s t = true := by
          simp [shouldInvoke, hc]
        rw [ht] at h
        cases h
    | some c =>
        refine ⟨c, rfl, ?_⟩
        simp only [remainingWait, hc]

/-- Witness for C6: a timer firing at `t = 50`, halfway through a
`wait = 100` cycle whose last trigger was at `0`, is rescheduled for the
remaining `50` ms with no execution. -/
theorem timerExpired_reschedule_witness :
    shouldInvoke sEarlyTimer 50 = false ∧
    (timerExpired okFunc sEarlyTimer 50).1.timerId =
      some (Timer.timeout 50) ∧
    (timerExpired okFunc sEarlyTimer 50).1.calls = [] := by
  have h := timerExpired_reschedule okFunc sEarlyTimer 50 (by decide)
  refine ⟨by decide, ?_, h.1⟩
  rw [h.2.1]
  decide

/-- Claim C7: every execution of the target goes through `invokeFunc`,
which clears `lastArgs`/`lastThis` and sets `lastInvokeTime` before the
target is called; so when the target throws, the exception propagates
with `result` unassigned, the pending arguments are not retained, and a
later trailing edge does not retry the invocation. -/
theorem invokeFunc_clears_before_call (f : Func) (s : State) (t : Int) :
    (invokeFunc f s t).1.lastArgs = none ∧
    (invokeFunc f s t).1.lastThis = none ∧
    (invokeFunc f s t).1.lastInvokeTime = t ∧
    (invokeFunc f s t).1.calls = (t, s.lastThis, s.lastArgs) :: s.calls ∧
    (∀ e, f s.lastThis (s.lastArgs.getD []) = .error e →
      (invokeFunc f s t).2 = .error e ∧
      (invokeFunc f s t).1.result = s.result) ∧
    (∀ (g : Func) (u : Int),
      (trailingEdge g (invokeFunc f s t).1 u).1.calls =
        (invokeFunc f s t).1.calls) := by
  refine ⟨invokeFunc_fst_lastArgs f s t, invokeFunc_fst_lastThis f s t,
    invokeFunc_fst_lastInvokeTime f s t, invokeFunc_fst_calls f s t, ?_, ?_⟩
  · intro e he
    constructor <;> simp [invokeFunc, he]
  · intro g u
    exact trailingEdge_calls_of_lastArgs_none g _ u
      (invokeFunc_fst_lastArgs f s t)

/-- Witness for C7: a throwing target at a state with queued arguments —
the exception propagates, the stored result `7` is untouched, and the
queued arguments are gone. -/
theorem invokeFunc_clears_before_call_witness :
    (invokeFunc throwFunc sPendingTrail 40).1.lastArgs = none ∧
    (invokeFunc throwFunc sPendingTrail 40).2 = .error () ∧
    (invokeFunc throwFunc sPendingTrail 40).1.result = some 7 := by
  have h := invokeFunc_clears_before_call throwFunc sPendingTrail 40
  obtain ⟨he1, he2⟩ := h.2.2.2.2.1 () rfl
  exact ⟨h.1, he1, he2⟩

/-- Claim C8 is false as stated: frame mode is not selected only when
`wait` is omitted — a NaN (non-numeric) `wait`, which is not the omitted
value, also selects frame mode when the primitive is available. -/
theorem useRAF_nan_cex :
    JSVal.nan ≠ JSVal.undef ∧
      debounceInit true .nan none true =
        .ok { wait := 0, leading := false, trailing := true, maxing := false,
              maxWait := 0, useRAF := true } := by
  exact ⟨by decide, rfl⟩

/-- Claim C8 (amended): frame mode is selected iff the `wait` argument
is falsy but not the number `0` (it was omitted, or its numeric coercion
is NaN — e.g. NaN itself; explicitly passing `0` opts out) and the
frame-scheduling primitive is available; the choice is a single boolean
fixed at construction, and it alone selects the primitive used for every
scheduling (`startTimer`) and cancellation (`cancelTimerKind`). -/
theorem useRAF_spec (fc : Bool) (w : JSVal) (opts : Option OptsArg)
    (raf : Bool) (cfg : Config)
    (h : debounceInit fc w opts raf = .ok cfg) :
    (cfg.useRAF = true ↔ isFalsy w = true ∧ w ≠ .num 0 ∧ raf = true) ∧
    (∀ d, startTimer cfg d = if cfg.useRAF then .raf else .timeout d) ∧
    cancelTimerKind cfg = (if cfg.useRAF then .frame else .timeout) := by
  have hRAF : cfg.useRAF = (isFalsy w && w != JSVal.num 0 && raf) := by
    cases fc with
    | false => simp [debounceInit] at h
    | true =>
        cases opts with
        | none =>
            simp only [debounceInit] at h
            injection h with h
            subst h
            rfl
        | some o =>
            simp only [debounceInit] at h
            injection h with h
            subst h
            rfl
  refine ⟨?_, fun d => rfl, rfl⟩
  rw [hRAF]
  simp only [Bool.and_eq_true, bne_iff_ne, ne_eq]
  tauto

/-- Witness for the amended C8: omitting `wait` with the frame primitive
available selects frame mode. -/
theorem useRAF_spec_witness :
    ∃ cfg, debounceInit true .undef none true = .ok cfg ∧
      cfg.useRAF = true := by
  refine ⟨_, rfl, ?_⟩
  have h := useRAF_spec true .undef none true _ rfl
  exact h.1.mpr ⟨rfl, by decide, rfl⟩

end Debounce
